import Mathlib

/-!
Verification development for the `k8r` checkup engine.

The Go sources are shallowly embedded:
* the Kubernetes API objects the detectors read (`corev1.Pod`,
  `autoscaling/v1.HorizontalPodAutoscaler`) become Lean structures holding
  exactly the fields the program consults; Go nil-able pointers become
  `Option`; Go `int32` counters become `Int` (conversions that can wrap are
  made explicit);
* `runtime.Object` together with the detectors' type assertions becomes the
  sum type `K8sObject`;
* a detector's possible runtime panic (nil-pointer dereference) is made
  explicit by returning `Except Unit`, where `Except.error ()` marks the
  panic;
* Go maps built by `m[k] = append(m[k], v)` become association lists updated
  by `mapAppend`; the map `map[Severity]map[string][]*Resource` becomes an
  association list over `Severity`;
* the inert `context.Context` parameter of the detector contract is dropped.
-/

namespace K8r

/-! ## Kubernetes data model (the fields the program reads) -/

/-- Embeds `corev1.Container` (only the fields read: `Name`, `Image`). -/
structure Container where
  Name : String
  Image : String
deriving DecidableEq, Repr

/-- Embeds `corev1.ContainerStateWaiting` (`Reason`, `Message`). -/
structure ContainerStateWaiting where
  Reason : String
  Message : String
deriving DecidableEq, Repr

/-- Embeds `corev1.ContainerStateTerminated`.  `FinishedAt` stands for the
rendered form of the `metav1.Time` value the Go code formats with `%s`. -/
structure ContainerStateTerminated where
  Reason : String
  Message : String
  FinishedAt : String
deriving DecidableEq, Repr

/-- Embeds `corev1.ContainerState`: the `Waiting`/`Terminated` members are
nil-able pointers in Go, hence `Option` here. -/
structure ContainerState where
  Waiting : Option ContainerStateWaiting := none
  Terminated : Option ContainerStateTerminated := none
deriving DecidableEq, Repr

/-- Embeds `corev1.ContainerStatus` (fields read by the detectors). -/
structure ContainerStatus where
  Name : String
  Ready : Bool := false
  RestartCount : Int := 0
  State : ContainerState := {}
  LastTerminationState : ContainerState := {}
deriving DecidableEq, Repr

/-- Embeds `corev1.Pod`, flattening `ObjectMeta`/`Spec`/`Status` to the
fields the program consults.  `Phase` models `corev1.PodPhase`, a string
type (`"Running"`, `"Pending"`, ...). -/
structure Pod where
  Namespace : String := ""
  Name : String := ""
  Labels : List (String × String) := []
  Phase : String := ""
  SpecContainers : List Container := []
  SpecInitContainers : List Container := []
  ContainerStatuses : List ContainerStatus := []
  InitContainerStatuses : List ContainerStatus := []
deriving DecidableEq, Repr

/-- Embeds `autoscaling/v1.HorizontalPodAutoscaler` (fields consulted:
metadata plus `Spec.MaxReplicas` and `Status.CurrentReplicas`, both `int32`
in Go, carried as `Int` here). -/
structure HPA where
  Namespace : String := ""
  Name : String := ""
  Labels : List (String × String) := []
  MaxReplicas : Int := 0
  CurrentReplicas : Int := 0
deriving DecidableEq, Repr

/-- Embeds `runtime.Object` restricted to the two kinds the program ever
passes to a detector; the detectors' Go type assertions become matches on
this sum. -/
inductive K8sObject where
  | pod (p : Pod)
  | hpa (h : HPA)
deriving DecidableEq, Repr

/-- Go's `labels["reporting_team"]` map access: empty string when absent. -/
def lookupLabel (labels : List (String × String)) (key : String) : String :=
  (labels.lookup key).getD ""

/-- Go's `int32(n)` conversion from `int`: two's-complement wrap-around into
`[-2^31, 2^31)`. -/
def toInt32 (n : Int) : Int :=
  (n + 2 ^ 31) % 2 ^ 32 - 2 ^ 31

/-! ## checkup package: core data model (`problem.go`, `part_000`) -/

/-- `Config` stores all the flags passed in (`RestartThreshold` from the
`restart-threshold` flag, Go `int`). -/
structure Config where
  RestartThreshold : Int
deriving DecidableEq, Repr

/-- `Severity` of a problem; `error` embeds Go's `SeverityError` (0) and
`warning` embeds `SeverityWarning` (1). -/
inductive Severity where
  | error
  | warning
deriving DecidableEq, BEq, Repr

/-- `Problem`: a detection rule.  The `Detector` result `Except.ok` carries
Go's `(resourceSpecificReason, warning, isOccurring)` tuple; `Except.error ()`
marks a runtime panic inside the detector. -/
structure Problem where
  ID : String
  ShortDescription : String
  HelpURL : String := ""
  Detector : K8sObject → Config → Except Unit (String × Bool × Bool)

/-- `Resource`: one occurrence of a problem on one concrete resource.
Defaults are Go zero values. -/
structure Resource where
  Name : String := ""
  Owner : String := ""
  ResourceType : String := ""
  ProblemID : String := ""
  ProblemDetails : String := ""
  Warning : Bool := false
deriving DecidableEq, Repr

/-- `Report`: aggregate view over a completed scan. -/
structure Report where
  Problems : List Problem
  Resources : List Resource

/-! ## Detectors (`existing_checks.go`, `k8r.go`) -/

/-- The `isCrashLoopBackoff` closure of `ProblemPodCrashLoopBackOff`. -/
def isCrashLoopBackoff (cs : ContainerStatus) : Bool :=
  match cs.State.Waiting with
  | some w => w.Reason == "CrashLoopBackOff"
  | none => false

/-- One pass of the container loop of `ProblemPodCrashLoopBackOff`.  The Go
body formats `cs.LastTerminationState.Terminated.Message` without a nil
check; when `Terminated` is `none` the field access dereferences a nil
pointer, i.e. panics (`Except.error ()`). -/
def crashLoopCheck (label : String) : List ContainerStatus →
    Option (Except Unit (String × Bool × Bool))
  | [] => none
  | cs :: rest =>
    if isCrashLoopBackoff cs then
      some (match cs.LastTerminationState.Terminated with
        | some t =>
          Except.ok (label ++ cs.Name ++ " in a crash loop backoff state: " ++ t.Message,
            false, true)
        | none => Except.error ())
    else crashLoopCheck label rest

/-- `ProblemPodCrashLoopBackOff` (`existing_checks.go`). -/
def ProblemPodCrashLoopBackOff : Problem where
  ID := "PodCrashLoopBackOff"
  ShortDescription := "A pod is in a crash loop backoff state, meaning it is crashing repeatedly"
  Detector := fun obj _ =>
    match obj with
    | .pod pod =>
      match crashLoopCheck "Container " pod.ContainerStatuses with
      | some r => r
      | none =>
        match crashLoopCheck "Init container " pod.InitContainerStatuses with
        | some r => r
        | none => Except.ok ("", false, false)
    | _ => Except.ok ("", false, false)

/-- The container loop of `ProblemPodNotReady`. -/
def notReadyCheck : List ContainerStatus → Option (String × Bool × Bool)
  | [] => none
  | cs :: rest =>
    if !cs.Ready then some ("Container " ++ cs.Name ++ " is not ready", false, true)
    else notReadyCheck rest

/-- `ProblemPodNotReady` (`existing_checks.go`). -/
def ProblemPodNotReady : Problem where
  ID := "PodNotReady"
  ShortDescription := "A pod is not ready which can indicate a problem with the pod"
  Detector := fun obj _ =>
    match obj with
    | .pod pod =>
      if pod.Phase ≠ "Running" then Except.ok ("", false, false)
      else
        match notReadyCheck pod.ContainerStatuses with
        | some r => Except.ok r
        | none => Except.ok ("", false, false)
    | _ => Except.ok ("", false, false)

/-- The `isImagePullBackOff` closure of `ProblemPodImagePullBackOff`. -/
def isImagePullBackOff (cs : ContainerStatus) : Bool :=
  match cs.State.Waiting with
  | some w => w.Reason == "ImagePullBackOff" || w.Reason == "ErrImagePull"
  | none => false

/-- The `getImageForContainerStatus` closure: look the container name up in
the pod spec's (init-)container list, `"unknown"` when absent. -/
def getImageForContainerStatus (pod : Pod) (isInitContainer : Bool)
    (cs : ContainerStatus) : String :=
  let sl := if isInitContainer then pod.SpecInitContainers else pod.SpecContainers
  match sl.find? (fun c => c.Name == cs.Name) with
  | some c => c.Image
  | none => "unknown"

/-- One container loop of `ProblemPodImagePullBackOff`. -/
def imagePullCheck (pod : Pod) (isInitContainer : Bool) :
    List ContainerStatus → Option (String × Bool × Bool)
  | [] => none
  | cs :: rest =>
    let imageName := getImageForContainerStatus pod isInitContainer cs
    if isImagePullBackOff cs then
      some ("Container " ++ cs.Name ++ " is failing to pull its image (" ++ imageName ++ ")",
        false, true)
    else imagePullCheck pod isInitContainer rest

/-- `ProblemPodImagePullBackOff` (`existing_checks.go`). -/
def ProblemPodImagePullBackOff : Problem where
  ID := "PodImagePullBackOff"
  ShortDescription := "A pod is in a image pull backoff state, meaning it is unable to pull the image"
  Detector := fun obj _ =>
    match obj with
    | .pod pod =>
      match imagePullCheck pod false pod.ContainerStatuses with
      | some r => Except.ok r
      | none =>
        match imagePullCheck pod true pod.InitContainerStatuses with
        | some r => Except.ok r
        | none => Except.ok ("", false, false)
    | _ => Except.ok ("", false, false)

/-- First guard of the `ProblemPodOOMKilled` loop: the container's current
state is terminated with reason `"OOMKilled"`. -/
def currentOOMKilled (cs : ContainerStatus) : Bool :=
  match cs.State.Terminated with
  | some t => t.Reason == "OOMKilled"
  | none => false

/-- Second guard of the `ProblemPodOOMKilled` loop: the container's last
termination state has reason `"OOMKilled"`. -/
def lastOOMKilled (cs : ContainerStatus) : Bool :=
  match cs.LastTerminationState.Terminated with
  | some t => t.Reason == "OOMKilled"
  | none => false

/-- The `FinishedAt` value read in the warning branch of
`ProblemPodOOMKilled` (only read under `lastOOMKilled`). -/
def lastFinishedAt (cs : ContainerStatus) : String :=
  match cs.LastTerminationState.Terminated with
  | some t => t.FinishedAt
  | none => ""

/-- The container loop of `ProblemPodOOMKilled`: per container the current
state is checked before the last termination state. -/
def oomCheck : List ContainerStatus → Option (String × Bool × Bool)
  | [] => none
  | cs :: rest =>
    if currentOOMKilled cs then
      some ("Container " ++ cs.Name ++ " was killed because it ran out of memory", false, true)
    else if lastOOMKilled cs then
      some ("Container " ++ cs.Name ++ " was recently killed because it ran out of memory: "
        ++ lastFinishedAt cs, true, true)
    else oomCheck rest

/-- `ProblemPodOOMKilled` (`existing_checks.go`); only regular container
statuses are scanned. -/
def ProblemPodOOMKilled : Problem where
  ID := "PodOOMKilled"
  ShortDescription := "A pod was killed because it ran out of memory recently"
  Detector := fun obj _ =>
    match obj with
    | .pod pod =>
      match oomCheck pod.ContainerStatuses with
      | some r => Except.ok r
      | none => Except.ok ("", false, false)
    | _ => Except.ok ("", false, false)

/-- One container loop of `ProblemPodPending`. -/
def pendingCheck (label : String) : List ContainerStatus → Option (String × Bool × Bool)
  | [] => none
  | cs :: rest =>
    match cs.State.Waiting with
    | some w => some (label ++ cs.Name ++ " is pending: " ++ w.Message, false, true)
    | none => pendingCheck label rest

/-- `ProblemPodPending` (`existing_checks.go`). -/
def ProblemPodPending : Problem where
  ID := "PodPending"
  ShortDescription := "A pod is pending"
  Detector := fun obj _ =>
    match obj with
    | .pod pod =>
      if pod.Phase ≠ "Pending" then Except.ok ("", false, false)
      else
        match pendingCheck "Container " pod.ContainerStatuses with
        | some r => Except.ok r
        | none =>
          match pendingCheck "Init container " pod.InitContainerStatuses with
          | some r => Except.ok r
          | none => Except.ok ("", false, false)
    | _ => Except.ok ("", false, false)

/-- The container loop of `ProblemHighRestarts` (`k8r.go`): note the Go code
formats the POD name (`pod.Name`), not the container name, and compares
`cs.RestartCount >= int32(cfg.RestartThreshold)`. -/
def highRestartsCheck (podName : String) (threshold : Int) :
    List ContainerStatus → Option (String × Bool × Bool)
  | [] => none
  | cs :: rest =>
    if threshold ≤ cs.RestartCount then
      some ("Container " ++ podName ++ " has restarted " ++ toString cs.RestartCount
        ++ " time(s)", true, true)
    else highRestartsCheck podName threshold rest

/-- `ProblemHighRestarts` (`k8r.go`). -/
def ProblemHighRestarts : Problem where
  ID := "HighRestarts"
  ShortDescription := "A pod keeps restarting which can indicate a problem"
  HelpURL := "https://github.com/Ashvin-Ranjan/k8r/wiki/HighRestarts"
  Detector := fun obj cfg =>
    match obj with
    | .pod pod =>
      match highRestartsCheck pod.Name (toInt32 cfg.RestartThreshold) pod.ContainerStatuses with
      | some r => Except.ok r
      | none => Except.ok ("", false, false)
    | _ => Except.ok ("", false, false)

/-- `ProblemMaxedOutHPAs` (`k8r.go`): when `Spec.MaxReplicas` equals
`Status.CurrentReplicas` the Go code returns `(detail, true, true)` — the
warning flag is TRUE. -/
def ProblemMaxedOutHPAs : Problem where
  ID := "MaxedOutHPAs"
  ShortDescription := "A pod's HPAs current replicas is equal to its max"
  HelpURL := "https://github.com/Ashvin-Ranjan/k8r/wiki/MaxedOutHPAs"
  Detector := fun obj _ =>
    match obj with
    | .hpa hpa =>
      if hpa.MaxReplicas = hpa.CurrentReplicas then
        Except.ok (hpa.Name ++ " has " ++ toString hpa.CurrentReplicas ++ "/"
          ++ toString hpa.MaxReplicas ++ " replicas", true, true)
      else Except.ok ("", false, false)
    | _ => Except.ok ("", false, false)

/-! ## Problem catalog (`part_000`) -/

/-- `enabledPodProblems`: pod problem checkers, in source order. -/
def enabledPodProblems : List Problem :=
  [ProblemPodCrashLoopBackOff, ProblemPodNotReady, ProblemPodImagePullBackOff,
   ProblemPodOOMKilled, ProblemHighRestarts]

/-- `enabledHPAProblems`: HPA problem checkers. -/
def enabledHPAProblems : List Problem :=
  [ProblemMaxedOutHPAs]

/-- `enabledProblems = append(enabledPodProblems, enabledHPAProblems...)`. -/
def enabledProblems : List Problem :=
  enabledPodProblems ++ enabledHPAProblems

/-! ## Report aggregation (`problem.go`) -/

/-- The loop of `ReportFromResources`: walk the resources, and for each not
yet seen `ProblemID` scan `enabledProblems` for the first entry with that ID
(`break` on match).  Only on a match is the ID marked seen. -/
def reportProblemsGo : List Resource → List String → List Problem
  | [], _ => []
  | r :: rs, seen =>
    if r.ProblemID ∈ seen then reportProblemsGo rs seen
    else
      match enabledProblems.find? (fun p => p.ID == r.ProblemID) with
      | some p => p :: reportProblemsGo rs (r.ProblemID :: seen)
      | none => reportProblemsGo rs seen

/-- `ReportFromResources` (`problem.go`): `Resources` is the input list
unmodified; `Problems` is built by `reportProblemsGo` from an empty seen
set. -/
def ReportFromResources (resources : List Resource) : Report where
  Problems := reportProblemsGo resources []
  Resources := resources

/-- Go's `m[k] = append(m[k], v)` on a `map[string][]*Resource`, with the map
carried as an association list in first-insertion order. -/
def mapAppend : List (String × List Resource) → String → Resource →
    List (String × List Resource)
  | [], k, v => [(k, [v])]
  | (k', vs) :: rest, k, v =>
    if k' = k then (k', vs ++ [v]) :: rest else (k', vs) :: mapAppend rest k v

/-- `Report.ByProblem` (`problem.go`): outer loop over `Problems`, inner loop
over `Resources`, appending each matching resource to the bucket of the
problem's ID. -/
def Report.ByProblem (r : Report) : List (String × List Resource) :=
  r.Problems.foldl
    (fun m p =>
      r.Resources.foldl
        (fun m' res => if res.ProblemID == p.ID then mapAppend m' p.ID res else m') m)
    []

/-- Go's `rtrn[severity][id] = append(rtrn[severity][id], res)`: update the
inner map stored at an outer `Severity` key. -/
def severityAppend (m : List (Severity × List (String × List Resource)))
    (s : Severity) (k : String) (v : Resource) :
    List (Severity × List (String × List Resource)) :=
  m.map (fun e => if e.1 = s then (e.1, mapAppend e.2 k v) else e)

/-- `Report.BySeverity` (`problem.go`): both severity buckets are initialized
up front; each matching resource is routed by its `Warning` flag. -/
def Report.BySeverity (r : Report) : List (Severity × List (String × List Resource)) :=
  r.Problems.foldl
    (fun m p =>
      r.Resources.foldl
        (fun m' res =>
          if res.ProblemID == p.ID then
            if !res.Warning then severityAppend m' Severity.error p.ID res
            else severityAppend m' Severity.warning p.ID res
          else m') m)
    [(Severity.error, []), (Severity.warning, [])]

/-! ## Scanner and run loop (`part_000`) -/

/-- `Options.getPodsWithProblems`: run every enabled pod problem against the
pod; each occurring detection emits a record built from the default
template.  A detector panic aborts the scan (`Except.error`). -/
def getPodsWithProblems (pod : Pod) (cfg : Config) :
    Except Unit (List Resource × Bool) := do
  let defaultProblem : Resource :=
    { Owner := lookupLabel pod.Labels "reporting_team"
      Name := pod.Namespace ++ "/" ++ pod.Name
      ResourceType := "pod" }
  let problems ← enabledPodProblems.foldlM
    (fun (acc : List Resource) (problem : Problem) => do
      let (resourceDetails, warning, occurring) ← problem.Detector (K8sObject.pod pod) cfg
      if !occurring then pure acc
      else pure (acc ++ [{ defaultProblem with
        ProblemID := problem.ID
        ProblemDetails := resourceDetails
        Warning := warning }]))
    []
  pure (problems, problems.length > 0)

/-- `Options.getHPAsWithProblems`: the HPA counterpart (resource type
`"HPA"`). -/
def getHPAsWithProblems (hpa : HPA) (cfg : Config) :
    Except Unit (List Resource × Bool) := do
  let defaultProblem : Resource :=
    { Owner := lookupLabel hpa.Labels "reporting_team"
      Name := hpa.Namespace ++ "/" ++ hpa.Name
      ResourceType := "HPA" }
  let problems ← enabledHPAProblems.foldlM
    (fun (acc : List Resource) (problem : Problem) => do
      let (resourceDetails, warning, occurring) ← problem.Detector (K8sObject.hpa hpa) cfg
      if !occurring then pure acc
      else pure (acc ++ [{ defaultProblem with
        ProblemID := problem.ID
        ProblemDetails := resourceDetails
        Warning := warning }]))
    []
  pure (problems, problems.length > 0)

/-- The two scan loops of `Options.Run`: accumulate the records of every pod
and then of every HPA (appended only when the `is` flag is set). -/
def scanAll (pods : List Pod) (hpas : List HPA) (cfg : Config) :
    Except Unit (List Resource) := do
  let rp ← pods.foldlM
    (fun (acc : List Resource) p => do
      let (rs, is) ← getPodsWithProblems p cfg
      pure (if is then acc ++ rs else acc))
    []
  hpas.foldlM
    (fun (acc : List Resource) h => do
      let (rs, is) ← getHPAsWithProblems h cfg
      pure (if is then acc ++ rs else acc))
    rp

/-- The decision part of `Options.Run`, after the (external) snapshot
acquisition: an empty record list prints the all-clear and returns nil
(process exit status 0); otherwise the report and its two indices are built,
rendered, and the process exits with status 1 (`os.Exit(1)`).  Rendering to
stdout is the out-of-scope presentation collaborator; the returned `Nat` is
the process exit status. -/
def RunModel (pods : List Pod) (hpas : List HPA) (cfg : Config) :
    Except Unit Nat := do
  let resourceProblems ← scanAll pods hpas cfg
  if resourceProblems.isEmpty then
    pure 0
  else
    let report := ReportFromResources resourceProblems
    let _byProblem := report.ByProblem
    let _bySeverity := report.BySeverity
    pure 1

/-! ## Spec-side definitions

These follow the spec's words and are compared against the source-derived
definitions above. -/

/-- Spec wording: a `problemID` "resolves to a catalog entry" when some
enabled problem carries that ID. -/
def resolvable (id : String) : Bool :=
  (enabledProblems.find? (fun p => p.ID == id)).isSome

/-- Spec wording: the distinct elements of a list "in order of first
appearance", skipping those already in `seen`. -/
def dedupFirstAppearance : List String → List String → List String
  | [], _ => []
  | x :: xs, seen =>
    if x ∈ seen then dedupFirstAppearance xs seen
    else x :: dedupFirstAppearance xs (x :: seen)

/-- The keys of an association-list map. -/
def mapKeys (m : List (String × List Resource)) : List String :=
  m.map Prod.fst

/-- The generic problems-times-resources bucket-building fold shared by
`Report.ByProblem` and the two halves of `Report.BySeverity`. -/
def buildMap (q : Problem → Resource → Bool) (ps : List Problem) (rs : List Resource)
    (m₀ : List (String × List Resource)) : List (String × List Resource) :=
  ps.foldl
    (fun m p =>
      rs.foldl (fun m' res => if q p res then mapAppend m' p.ID res else m') m)
    m₀

/-- The buckets the spec describes: one per problem, holding the matching
records in input order, problems without a match owning no bucket. -/
def specBuckets (q : Problem → Resource → Bool) (ps : List Problem) (rs : List Resource) :
    List (String × List Resource) :=
  (ps.map (fun p => (p.ID, rs.filter (q p)))).filter (fun e => !e.2.isEmpty)

/-- Spec wording: "the union of all buckets" of a by-problem map. -/
def bucketsUnion : List (String × List Resource) → List Resource
  | [] => []
  | e :: m => e.2 ++ bucketsUnion m

/-- Spec wording: "the union of all buckets" across both severities. -/
def severityUnion : List (Severity × List (String × List Resource)) → List Resource
  | [] => []
  | e :: m => bucketsUnion e.2 ++ severityUnion m

/-- Concatenation of the per-problem record filters, in problem order. -/
def unionFilters (q : Problem → Resource → Bool) (rs : List Resource) :
    List Problem → List Resource
  | [] => []
  | p :: ps => rs.filter (q p) ++ unionFilters q rs ps

/-! ## Concrete inputs used in witnesses and counterexamples -/

/-- Run configuration with the default `restart-threshold` of 3. -/
def cfg3 : Config := { RestartThreshold := 3 }

/-- A healthy running pod whose single container has restarted 5 times. -/
def podFiveRestarts : Pod :=
  { Namespace := "ns", Name := "mypod", Labels := [("reporting_team", "team-x")],
    Phase := "Running",
    ContainerStatuses := [{ Name := "c1", Ready := true, RestartCount := 5 }] }

/-- The record `getPodsWithProblems` emits for `podFiveRestarts`. -/
def recFiveRestarts : Resource :=
  { Name := "ns/mypod", Owner := "team-x", ResourceType := "pod",
    ProblemID := "HighRestarts",
    ProblemDetails := "Container mypod has restarted 5 time(s)", Warning := true }

/-- An autoscaler at its maximum replica count (10 of 10). -/
def hpaMaxed : HPA :=
  { Namespace := "ns", Name := "hpa1", MaxReplicas := 10, CurrentReplicas := 10 }

/-- An autoscaler below its maximum replica count (9 of 10). -/
def hpaNine : HPA :=
  { Namespace := "ns", Name := "hpa1", MaxReplicas := 10, CurrentReplicas := 9 }

/-- The record the HPA scan emits for `hpaMaxed`. -/
def recMaxed : Resource :=
  { Name := "ns/hpa1", Owner := "", ResourceType := "HPA",
    ProblemID := "MaxedOutHPAs",
    ProblemDetails := "hpa1 has 10/10 replicas", Warning := true }

/-- A pod with a container waiting in `CrashLoopBackOff` whose
`LastTerminationState.Terminated` is nil: the detector's failing input. -/
def podCrashNilTerm : Pod :=
  { Namespace := "ns", Name := "crashpod", Phase := "Running",
    ContainerStatuses :=
      [{ Name := "c1", Ready := false,
         State := { Waiting := some { Reason := "CrashLoopBackOff", Message := "back-off" } } }] }

/-- A container status whose only OOM evidence is its last termination
state (finish timestamp `2023-01-01 00:00:00 +0000 UTC`). -/
def csOOMLast : ContainerStatus :=
  { Name := "c1", Ready := true,
    LastTerminationState :=
      { Terminated :=
          some { Reason := "OOMKilled", Message := "",
                 FinishedAt := "2023-01-01 00:00:00 +0000 UTC" } } }

/-- A container status currently terminated with reason `OOMKilled`. -/
def csOOMCurrent : ContainerStatus :=
  { Name := "c2", Ready := true,
    State :=
      { Terminated :=
          some { Reason := "OOMKilled", Message := "", FinishedAt := "t2" } } }

/-- A pod whose first container has only a last-termination OOM kill while
its second container is currently OOM-killed. -/
def podOOMMixed : Pod :=
  { Namespace := "ns", Name := "oompod", Phase := "Running",
    ContainerStatuses := [csOOMLast, csOOMCurrent] }

/-- A pod whose single container is currently OOM-killed. -/
def podOOMCurrentOnly : Pod :=
  { Namespace := "ns", Name := "oomnow", Phase := "Running",
    ContainerStatuses := [csOOMCurrent] }

/-- A pod whose single container was OOM-killed in its previous run only. -/
def podOOMLastOnly : Pod :=
  { Namespace := "ns", Name := "oombefore", Phase := "Running",
    ContainerStatuses := [csOOMLast] }

/-- A record whose `ProblemID` resolves to no catalog entry. -/
def recUnresolvable : Resource :=
  { Name := "ns/x", ProblemID := "DoesNotExist" }

/-- A resolvable warning-severity record. -/
def recWarnHigh : Resource :=
  { Name := "ns/mypod", ProblemID := "HighRestarts", Warning := true }

/-- A resolvable error-severity record. -/
def recErrOOM : Resource :=
  { Name := "ns/oompod", ProblemID := "PodOOMKilled", Warning := false }

/-- The record list used by the C1 witness: a duplicate ID, an unresolvable
ID, and two distinct resolvable IDs. -/
def rsWitness : List Resource :=
  [recWarnHigh, recUnresolvable, recErrOOM, recWarnHigh]

/-- The all-resolvable record list used by the C2 witness. -/
def rsResolvable : List Resource :=
  [recWarnHigh, recErrOOM, recWarnHigh]

/-! ## Lemmas about `ReportFromResources` -/

theorem mem_dedupFirstAppearance {a : String} :
    ∀ {l seen : List String}, a ∈ dedupFirstAppearance l seen ↔ a ∈ l ∧ a ∉ seen := by
  intro l
  induction l with
  | nil => intro seen; simp [dedupFirstAppearance]
  | cons x xs ih =>
    intro seen
    by_cases hx : x ∈ seen
    · simp only [dedupFirstAppearance, if_pos hx, ih, List.mem_cons]
      constructor
      · rintro ⟨h1, h2⟩
        exact ⟨Or.inr h1, h2⟩
      · rintro ⟨h1 | h1, h2⟩
        · exact absurd (h1 ▸ hx) h2
        · exact ⟨h1, h2⟩
    · simp only [dedupFirstAppearance, if_neg hx, List.mem_cons, ih]
      constructor
      · rintro (rfl | ⟨h1, h2⟩)
        · exact ⟨Or.inl rfl, hx⟩
        · exact ⟨Or.inr h1, fun hs => h2 (Or.inr hs)⟩
      · rintro ⟨h1 | h1, h2⟩
        · exact Or.inl h1
        · by_cases hax : a = x
          · exact Or.inl hax
          · exact Or.inr ⟨h1, by simp [List.mem_cons, hax, h2]⟩

theorem nodup_dedupFirstAppearance :
    ∀ (l seen : List String), (dedupFirstAppearance l seen).Nodup := by
  intro l
  induction l with
  | nil => intro seen; simp [dedupFirstAppearance]
  | cons x xs ih =>
    intro seen
    by_cases hx : x ∈ seen
    · simpa [dedupFirstAppearance, if_pos hx] using ih seen
    · simp only [dedupFirstAppearance, if_neg hx, List.nodup_cons]
      refine ⟨fun hmem => ?_, ih (x :: seen)⟩
      exact (mem_dedupFirstAppearance.mp hmem).2 (List.mem_cons_self x seen)

/-- The catalog entry found for an ID carries that ID. -/
theorem find?_enabled_id {id : String} {p : Problem}
    (h : enabledProblems.find? (fun q => q.ID == id) = some p) : p.ID = id := by
  have := List.find?_some h
  simpa [beq_iff_eq] using this

/-- The loop of `ReportFromResources` produces exactly the catalog entries of
the resolvable problem IDs, in order of first appearance. -/
theorem reportProblemsGo_map_id :
    ∀ (rs : List Resource) (seen : List String),
      (reportProblemsGo rs seen).map Problem.ID =
        dedupFirstAppearance ((rs.map Resource.ProblemID).filter resolvable) seen := by
  intro rs
  induction rs with
  | nil => intro seen; simp [reportProblemsGo, dedupFirstAppearance]
  | cons r rs ih =>
    intro seen
    by_cases hseen : r.ProblemID ∈ seen
    · cases hfind : enabledProblems.find? (fun p => p.ID == r.ProblemID) with
      | none =>
        simp [reportProblemsGo, if_pos hseen, List.filter, resolvable, hfind, ih]
      | some p =>
        simp [reportProblemsGo, if_pos hseen, List.filter, resolvable, hfind,
          dedupFirstAppearance, if_pos hseen, ih]
    · cases hfind : enabledProblems.find? (fun p => p.ID == r.ProblemID) with
      | none =>
        simp [reportProblemsGo, if_neg hseen, hfind, List.filter, resolvable, ih]
      | some p =>
        have hid : p.ID = r.ProblemID := find?_enabled_id hfind
        simp [reportProblemsGo, if_neg hseen, hfind, List.filter, resolvable,
          dedupFirstAppearance, if_neg hseen, ih, hid]

/-- Every problem emitted by the loop is the catalog entry found for its own
ID. -/
theorem reportProblemsGo_mem :
    ∀ (rs : List Resource) (seen : List String) (p : Problem),
      p ∈ reportProblemsGo rs seen →
        enabledProblems.find? (fun q => q.ID == p.ID) = some p := by
  intro rs
  induction rs with
  | nil => intro seen p h; simp [reportProblemsGo] at h
  | cons r rs ih =>
    intro seen p h
    by_cases hseen : r.ProblemID ∈ seen
    · rw [reportProblemsGo, if_pos hseen] at h
      exact ih seen p h
    · rw [reportProblemsGo, if_neg hseen] at h
      cases hfind : enabledProblems.find? (fun q => q.ID == r.ProblemID) with
      | none =>
        rw [hfind] at h
        exact ih seen p h
      | some q =>
        rw [hfind] at h
        rcases List.mem_cons.mp h with rfl | h
        · rwa [find?_enabled_id hfind]
        · exact ih _ p h

/-! ## Lemmas about the derived indices -/

theorem byProblem_eq_buildMap (r : Report) :
    r.ByProblem = buildMap (fun p res => res.ProblemID == p.ID) r.Problems r.Resources [] :=
  rfl

theorem mapAppend_not_mem {m : List (String × List Resource)} {k : String} {v : Resource}
    (h : k ∉ mapKeys m) : mapAppend m k v = m ++ [(k, [v])] := by
  induction m with
  | nil => rfl
  | cons e rest ih =>
    simp only [mapKeys, List.map, List.mem_cons, not_or] at h
    obtain ⟨e1, e2⟩ := e
    have hne : ¬ (e1 = k) := fun hk => h.1 hk.symm
    rw [mapAppend, if_neg hne, List.cons_append,
      ih (by simpa [mapKeys] using h.2)]

theorem mapAppend_last {k : String} {v : Resource} :
    ∀ {m : List (String × List Resource)} {vs : List Resource}, k ∉ mapKeys m →
      mapAppend (m ++ [(k, vs)]) k v = m ++ [(k, vs ++ [v])] := by
  intro m
  induction m with
  | nil => intro vs _; simp [mapAppend]
  | cons e rest ih =>
    intro vs h
    simp only [mapKeys, List.map, List.mem_cons, not_or] at h
    obtain ⟨e1, e2⟩ := e
    have hne : ¬ (e1 = k) := fun hk => h.1 hk.symm
    rw [List.cons_append, mapAppend, if_neg hne,
      ih (by simpa [mapKeys] using h.2), List.cons_append]

/-- Appending matches of `f` under a key `k` that already owns the last
bucket extends that bucket with the matches, in order. -/
theorem foldAppend_seeded (f : Resource → Bool) (k : String) :
    ∀ (rs : List Resource) (m : List (String × List Resource)) (vs : List Resource),
      k ∉ mapKeys m →
      rs.foldl (fun m' res => if f res then mapAppend m' k res else m') (m ++ [(k, vs)]) =
        m ++ [(k, vs ++ rs.filter f)] := by
  intro rs
  induction rs with
  | nil => intro m vs _; simp
  | cons res rest ih =>
    intro m vs h
    rw [List.foldl_cons]
    cases hf : f res with
    | false => simpa [hf, List.filter_cons] using ih m vs h
    | true =>
      rw [if_pos rfl, mapAppend_last h, ih m (vs ++ [res]) h]
      simp [List.filter_cons, hf, List.append_assoc]

/-- Appending matches of `f` under a fresh key `k` creates (at most) one new
bucket at the end of the map. -/
theorem foldAppend_fresh (f : Resource → Bool) (k : String) :
    ∀ (rs : List Resource) (m : List (String × List Resource)),
      k ∉ mapKeys m →
      rs.foldl (fun m' res => if f res then mapAppend m' k res else m') m =
        if (rs.filter f).isEmpty then m else m ++ [(k, rs.filter f)] := by
  intro rs
  induction rs with
  | nil => intro m _; simp
  | cons res rest ih =>
    intro m h
    rw [List.foldl_cons]
    cases hf : f res with
    | false => simpa [hf, List.filter_cons] using ih m h
    | true =>
      rw [if_pos rfl, mapAppend_not_mem h, foldAppend_seeded f k rest m [res] h]
      simp [List.filter_cons, hf]

theorem buildMap_eq (q : Problem → Resource → Bool) :
    ∀ (ps : List Problem) (rs : List Resource) (m₀ : List (String × List Resource)),
      (ps.map Problem.ID).Nodup →
      (∀ p ∈ ps, p.ID ∉ mapKeys m₀) →
      buildMap q ps rs m₀ = m₀ ++ specBuckets q ps rs := by
  intro ps
  induction ps with
  | nil => intro rs m₀ _ _; simp [buildMap, specBuckets]
  | cons p rest ih =>
    intro rs m₀ hnd hkeys
    have hfresh : p.ID ∉ mapKeys m₀ := hkeys p (List.mem_cons_self p rest)
    have hstep :
        buildMap q (p :: rest) rs m₀ =
          buildMap q rest rs
            (rs.foldl (fun m' res => if q p res then mapAppend m' p.ID res else m') m₀) := rfl
    rw [hstep, foldAppend_fresh (q p) p.ID rs m₀ hfresh]
    rw [List.map_cons, List.nodup_cons] at hnd
    cases hempty : (rs.filter (q p)).isEmpty with
    | true =>
      rw [if_pos rfl]
      rw [ih rs m₀ hnd.2 (fun p' hp' => hkeys p' (List.mem_cons_of_mem p hp'))]
      simp [specBuckets, List.filter_cons, hempty]
    | false =>
      rw [if_neg (by simp [hempty])]
      have hkeys' : ∀ p' ∈ rest, p'.ID ∉ mapKeys (m₀ ++ [(p.ID, rs.filter (q p))]) := by
        intro p' hp'
        have h1 : p'.ID ∉ mapKeys m₀ := hkeys p' (List.mem_cons_of_mem p hp')
        have h2 : p'.ID ≠ p.ID := by
          intro he
          exact hnd.1 (he ▸ List.mem_map_of_mem Problem.ID hp')
        have h1' : p'.ID ∉ List.map Prod.fst m₀ := by simpa [mapKeys] using h1
        simp [mapKeys, h2, h1']
      rw [ih rs _ hnd.2 hkeys']
      simp [specBuckets, List.filter_cons, hempty, List.append_assoc]

theorem bucketsUnion_filter_nonempty :
    ∀ (m : List (String × List Resource)),
      bucketsUnion (m.filter (fun e => !e.2.isEmpty)) = bucketsUnion m := by
  intro m
  induction m with
  | nil => rfl
  | cons e rest ih =>
    cases hemp : e.2.isEmpty with
    | true =>
      have : e.2 = [] := List.isEmpty_iff.mp hemp
      simp [List.filter_cons, hemp, bucketsUnion, this, ih]
    | false =>
      simp [List.filter_cons, hemp, bucketsUnion, ih]

theorem bucketsUnion_specBuckets (q : Problem → Resource → Bool) (rs : List Resource) :
    ∀ (ps : List Problem), bucketsUnion (specBuckets q ps rs) = unionFilters q rs ps := by
  intro ps
  rw [specBuckets, bucketsUnion_filter_nonempty]
  induction ps with
  | nil => rfl
  | cons p rest ih => simp [bucketsUnion, unionFilters, ih]

theorem unionFilters_congr (q : Problem → Resource → Bool) {rs₁ rs₂ : List Resource} :
    ∀ {ps : List Problem}, (∀ p ∈ ps, rs₁.filter (q p) = rs₂.filter (q p)) →
      unionFilters q rs₁ ps = unionFilters q rs₂ ps := by
  intro ps
  induction ps with
  | nil => intro _; rfl
  | cons p rest ih =>
    intro h
    rw [unionFilters, unionFilters, h p (List.mem_cons_self p rest),
      ih (fun p' hp' => h p' (List.mem_cons_of_mem p hp'))]

/-- Each record whose `ProblemID` is covered by the (duplicate-free) problem
list lands in exactly one per-problem filter: the concatenation is a
permutation of the records. -/
theorem unionFilters_match_perm :
    ∀ (ps : List Problem) (rs : List Resource),
      (ps.map Problem.ID).Nodup →
      (∀ r ∈ rs, r.ProblemID ∈ ps.map Problem.ID) →
      (unionFilters (fun p res => res.ProblemID == p.ID) rs ps).Perm rs := by
  intro ps
  induction ps with
  | nil =>
    intro rs _ hcov
    have : rs = [] := List.eq_nil_iff_forall_not_mem.mpr (fun r hr => by
      simpa using hcov r hr)
    simp [this, unionFilters]
  | cons p rest ih =>
    intro rs hnd hcov
    rw [List.map_cons, List.nodup_cons] at hnd
    rw [unionFilters]
    have hcongr :
        unionFilters (fun p' res => res.ProblemID == p'.ID) rs rest =
          unionFilters (fun p' res => res.ProblemID == p'.ID)
            (rs.filter (fun res => !(res.ProblemID == p.ID))) rest := by
      refine unionFilters_congr _ ?_
      intro p' hp'
      rw [List.filter_filter]
      refine (List.filter_congr ?_)
      intro a _
      by_cases hap : a.ProblemID = p'.ID
      · have hne : p'.ID ≠ p.ID := by
          intro he
          exact hnd.1 (he ▸ List.mem_map_of_mem Problem.ID hp')
        have : (a.ProblemID == p.ID) = false := by
          simp [hap, hne]
        simp [hap, this, hne]
      · simp [beq_iff_eq, hap]
    rw [hcongr]
    have hcov' : ∀ r ∈ rs.filter (fun res => !(res.ProblemID == p.ID)),
        r.ProblemID ∈ rest.map Problem.ID := by
      intro r hr
      obtain ⟨hrs, hne⟩ := List.mem_filter.mp hr
      have := hcov r hrs
      rw [List.map_cons, List.mem_cons] at this
      rcases this with he | hmem
      · exfalso
        rw [he] at hne
        simp at hne
      · exact hmem
    have hperm := ih (rs.filter (fun res => !(res.ProblemID == p.ID))) hnd.2 hcov'
    exact List.Perm.trans (List.Perm.append_left _ hperm)
      (List.filter_append_perm (fun res => res.ProblemID == p.ID) rs)

/-- One inner pass of `Report.BySeverity` acts independently on the two
severity buckets: the error map receives the non-warning matches, the
warning map the warning matches. -/
theorem bySeverity_inner (p : Problem) :
    ∀ (rs : List Resource) (me mw : List (String × List Resource)),
      rs.foldl
        (fun m' res =>
          if res.ProblemID == p.ID then
            if !res.Warning then severityAppend m' Severity.error p.ID res
            else severityAppend m' Severity.warning p.ID res
          else m')
        [(Severity.error, me), (Severity.warning, mw)] =
      [(Severity.error,
          rs.foldl
            (fun m' res =>
              if res.ProblemID == p.ID && !res.Warning then mapAppend m' p.ID res else m')
            me),
       (Severity.warning,
          rs.foldl
            (fun m' res =>
              if res.ProblemID == p.ID && res.Warning then mapAppend m' p.ID res else m')
            mw)] := by
  intro rs
  induction rs with
  | nil => intro me mw; rfl
  | cons res rest ih =>
    intro me mw
    have hinit :
        (if res.ProblemID == p.ID then
            if !res.Warning then
              severityAppend [(Severity.error, me), (Severity.warning, mw)]
                Severity.error p.ID res
            else
              severityAppend [(Severity.error, me), (Severity.warning, mw)]
                Severity.warning p.ID res
          else [(Severity.error, me), (Severity.warning, mw)]) =
        [(Severity.error,
            if res.ProblemID == p.ID && !res.Warning then mapAppend me p.ID res else me),
         (Severity.warning,
            if res.ProblemID == p.ID && res.Warning then mapAppend mw p.ID res else mw)] := by
      cases hm : res.ProblemID == p.ID with
      | false => simp [hm]
      | true =>
        cases hw : res.Warning with
        | false => simp [hm, hw, severityAppend]
        | true => simp [hm, hw, severityAppend]
    rw [List.foldl_cons, List.foldl_cons, List.foldl_cons]
    rw [hinit]
    exact ih _ _

theorem bySeverity_aux (rs : List Resource) :
    ∀ (ps : List Problem) (me mw : List (String × List Resource)),
      ps.foldl
        (fun m p =>
          rs.foldl
            (fun m' res =>
              if res.ProblemID == p.ID then
                if !res.Warning then severityAppend m' Severity.error p.ID res
                else severityAppend m' Severity.warning p.ID res
              else m') m)
        [(Severity.error, me), (Severity.warning, mw)] =
      [(Severity.error,
          buildMap (fun p res => res.ProblemID == p.ID && !res.Warning) ps rs me),
       (Severity.warning,
          buildMap (fun p res => res.ProblemID == p.ID && res.Warning) ps rs mw)] := by
  intro ps
  induction ps with
  | nil => intro me mw; rfl
  | cons p rest ih =>
    intro me mw
    rw [List.foldl_cons, bySeverity_inner p rs me mw, ih]
    rfl

/-- `Report.BySeverity` always returns exactly the two severity entries, in
initialization order, each holding the `buildMap` of its matches. -/
theorem bySeverity_eq (r : Report) :
    r.BySeverity =
      [(Severity.error,
          buildMap (fun p res => res.ProblemID == p.ID && !res.Warning)
            r.Problems r.Resources []),
       (Severity.warning,
          buildMap (fun p res => res.ProblemID == p.ID && res.Warning)
            r.Problems r.Resources [])] :=
  bySeverity_aux r.Resources r.Problems [] []

theorem perm_shuffle (a b c d : List Resource) :
    ((a ++ b) ++ (c ++ d)).Perm ((a ++ c) ++ (b ++ d)) := by
  rw [List.append_assoc, List.append_assoc]
  refine List.Perm.append_left a ?_
  rw [← List.append_assoc, ← List.append_assoc]
  exact List.Perm.append_right d List.perm_append_comm

/-- Splitting one problem's matches by the warning flag loses no record. -/
theorem filter_warning_split (p : Problem) (rs : List Resource) :
    (rs.filter (fun res => res.ProblemID == p.ID && !res.Warning) ++
      rs.filter (fun res => res.ProblemID == p.ID && res.Warning)).Perm
      (rs.filter (fun res => res.ProblemID == p.ID)) := by
  have h1 : rs.filter (fun res => res.ProblemID == p.ID && !res.Warning)
      = (rs.filter (fun res => res.ProblemID == p.ID)).filter (fun res => !res.Warning) := by
    rw [List.filter_filter]
    exact List.filter_congr (fun a _ => by cases a.Warning <;> simp [Bool.and_comm])
  have h2 : rs.filter (fun res => res.ProblemID == p.ID && res.Warning)
      = (rs.filter (fun res => res.ProblemID == p.ID)).filter
          (fun res => !(!res.Warning)) := by
    rw [List.filter_filter]
    exact List.filter_congr (fun a _ => by cases a.Warning <;> simp [Bool.and_comm])
  rw [h1, h2]
  exact List.filter_append_perm (fun res => !res.Warning)
    (rs.filter (fun res => res.ProblemID == p.ID))

/-- The error-side and warning-side per-problem filters together are a
permutation of the plain per-problem filters. -/
theorem unionFilters_sev_perm (rs : List Resource) :
    ∀ (ps : List Problem),
      (unionFilters (fun p res => res.ProblemID == p.ID && !res.Warning) rs ps ++
        unionFilters (fun p res => res.ProblemID == p.ID && res.Warning) rs ps).Perm
        (unionFilters (fun p res => res.ProblemID == p.ID) rs ps) := by
  intro ps
  induction ps with
  | nil => simp [unionFilters]
  | cons p rest ih =>
    rw [unionFilters, unionFilters, unionFilters]
    exact List.Perm.trans (perm_shuffle _ _ _ _)
      (List.Perm.append (filter_warning_split p rs) ih)

/-! ## Bridging lemmas shared by the claim proofs -/

theorem report_problems_ids (rs : List Resource) :
    (ReportFromResources rs).Problems.map Problem.ID =
      dedupFirstAppearance ((rs.map Resource.ProblemID).filter resolvable) [] :=
  reportProblemsGo_map_id rs []

theorem report_problems_nodup (rs : List Resource) :
    ((ReportFromResources rs).Problems.map Problem.ID).Nodup := by
  rw [report_problems_ids]
  exact nodup_dedupFirstAppearance _ _

theorem report_problems_mem_id {rs : List Resource} {id : String} :
    id ∈ (ReportFromResources rs).Problems.map Problem.ID ↔
      resolvable id = true ∧ id ∈ rs.map Resource.ProblemID := by
  rw [report_problems_ids, mem_dedupFirstAppearance]
  simp only [List.mem_filter, List.not_mem_nil, not_false_iff, and_true]
  exact and_comm

/-- For a duplicate-free problem list, `ByProblem` is exactly the spec's
bucket list. -/
theorem byProblem_spec (r : Report) (hnd : (r.Problems.map Problem.ID).Nodup) :
    r.ByProblem = specBuckets (fun p res => res.ProblemID == p.ID) r.Problems r.Resources := by
  rw [byProblem_eq_buildMap, buildMap_eq _ _ _ _ hnd (by simp [mapKeys])]
  rfl

theorem specBuckets_mem {q : Problem → Resource → Bool} {ps : List Problem}
    {rs : List Resource} {k : String} {vs : List Resource}
    (h : (k, vs) ∈ specBuckets q ps rs) :
    ∃ p ∈ ps, k = p.ID ∧ vs = rs.filter (q p) := by
  obtain ⟨hmem, _⟩ := List.mem_filter.mp h
  obtain ⟨p, hp, he⟩ := List.mem_map.mp hmem
  refine ⟨p, hp, ?_, ?_⟩
  · exact (congrArg Prod.fst he).symm
  · exact (congrArg Prod.snd he).symm

/-- The HighRestarts container loop stops at the first container whose
restart count reaches the (int32-converted) threshold. -/
theorem highRestartsCheck_eq_find (podName : String) (threshold : Int) :
    ∀ css : List ContainerStatus,
      highRestartsCheck podName threshold css =
        (css.find? (fun cs => decide (threshold ≤ cs.RestartCount))).map
          (fun cs => ("Container " ++ podName ++ " has restarted "
            ++ toString cs.RestartCount ++ " time(s)", true, true)) := by
  intro css
  induction css with
  | nil => rfl
  | cons cs rest ih =>
    by_cases hle : threshold ≤ cs.RestartCount
    · simp [highRestartsCheck, List.find?, hle]
    · simp [highRestartsCheck, List.find?, hle, ih]

/-- The OOMKilled container loop stops at the first container matching
either rule, checking the current state before the last termination. -/
theorem oomCheck_eq_find :
    ∀ css : List ContainerStatus,
      oomCheck css =
        (css.find? (fun cs => currentOOMKilled cs || lastOOMKilled cs)).map
          (fun cs =>
            if currentOOMKilled cs then
              ("Container " ++ cs.Name ++ " was killed because it ran out of memory",
                false, true)
            else
              ("Container " ++ cs.Name
                ++ " was recently killed because it ran out of memory: "
                ++ lastFinishedAt cs, true, true)) := by
  intro css
  induction css with
  | nil => rfl
  | cons cs rest ih =>
    cases h1 : currentOOMKilled cs with
    | true => simp [oomCheck, h1, List.find?]
    | false =>
      cases h2 : lastOOMKilled cs with
      | true => simp [oomCheck, h1, h2, List.find?]
      | false => simp [oomCheck, h1, h2, List.find?, ih]

/-- Any record sitting in a bucket of the spec's bucket list (for a guard
that implies an ID match) has a problem ID that resolves in the catalog. -/
theorem record_in_bucket_resolvable {rs : List Resource} {r : Resource}
    {q : Problem → Resource → Bool}
    (hq : ∀ (p : Problem) (res : Resource), q p res = true → res.ProblemID = p.ID)
    {k : String} {vs : List Resource}
    (hkv : (k, vs) ∈ specBuckets q (ReportFromResources rs).Problems rs)
    (hrv : r ∈ vs) : resolvable r.ProblemID = true := by
  obtain ⟨p, hp, _, hvs⟩ := specBuckets_mem hkv
  subst hvs
  obtain ⟨_, hqr⟩ := List.mem_filter.mp hrv
  have hid := hq p r hqr
  have hmem : p.ID ∈ (ReportFromResources rs).Problems.map Problem.ID :=
    List.mem_map_of_mem Problem.ID hp
  have hres := (report_problems_mem_id.mp hmem).1
  rwa [hid]

/-! ## Claim theorems -/

/-- Claim C1: for every list of resource records, the report built by
`ReportFromResources` stores the input list unchanged in `Resources`, and
`Problems` holds, in order of first appearance, exactly one problem per
distinct resolvable `problemID` of the input (duplicate-free), each listed
problem being the catalog entry found for its own ID, which occurs among the
input's IDs; unresolvable IDs are excluded without error. -/
theorem reportFromResources_spec (rs : List Resource) :
    (ReportFromResources rs).Resources = rs ∧
    (ReportFromResources rs).Problems.map Problem.ID =
      dedupFirstAppearance ((rs.map Resource.ProblemID).filter resolvable) [] ∧
    ((ReportFromResources rs).Problems.map Problem.ID).Nodup ∧
    ∀ p ∈ (ReportFromResources rs).Problems,
      enabledProblems.find? (fun q => q.ID == p.ID) = some p ∧
      p.ID ∈ rs.map Resource.ProblemID := by
  refine ⟨rfl, report_problems_ids rs, report_problems_nodup rs, ?_⟩
  intro p hp
  refine ⟨reportProblemsGo_mem rs [] p hp, ?_⟩
  have hmem : p.ID ∈ (ReportFromResources rs).Problems.map Problem.ID :=
    List.mem_map_of_mem Problem.ID hp
  exact (report_problems_mem_id.mp hmem).2

/-- Witness for C1 at the concrete list `rsWitness` (duplicate, unresolvable
and distinct IDs), discharging the membership hypothesis at
`ProblemHighRestarts`. -/
theorem reportFromResources_spec_witness :
    (ReportFromResources rsWitness).Resources = rsWitness ∧
    enabledProblems.find? (fun q => q.ID == ProblemHighRestarts.ID) =
      some ProblemHighRestarts ∧
    ProblemHighRestarts.ID ∈ rsWitness.map Resource.ProblemID :=
  ⟨(reportFromResources_spec rsWitness).1,
   ((reportFromResources_spec rsWitness).2.2.2 ProblemHighRestarts
      (List.mem_cons_self _ _)).1,
   ((reportFromResources_spec rsWitness).2.2.2 ProblemHighRestarts
      (List.mem_cons_self _ _)).2⟩

/-- Claim C2 counterexample: a report built from one record whose
`problemID` resolves to no catalog entry has an empty by-problem index, so
the union of all buckets is not a permutation of the input — the record is
dropped, contradicting the claim as stated. -/
theorem report_indices_partition_cex :
    ¬ (bucketsUnion (ReportFromResources [recUnresolvable]).ByProblem).Perm
        [recUnresolvable] := by
  decide

/-- Claim C2 (amended): for every report built by `ReportFromResources` from
records all of whose `problemID`s resolve to a catalog entry, the union of
all `ByProblem` buckets and the union of all `BySeverity` buckets each hold
the same multiset of records as the input, and every `ByProblem` bucket
lists exactly its matching records in input order. -/
theorem report_indices_partition (rs : List Resource)
    (hres : ∀ r ∈ rs, resolvable r.ProblemID = true) :
    (bucketsUnion (ReportFromResources rs).ByProblem).Perm rs ∧
    (severityUnion (ReportFromResources rs).BySeverity).Perm rs ∧
    ∀ k vs, (k, vs) ∈ (ReportFromResources rs).ByProblem →
      vs = rs.filter (fun r => r.ProblemID == k) := by
  have hnd := report_problems_nodup rs
  have hcov : ∀ r ∈ rs, r.ProblemID ∈ (ReportFromResources rs).Problems.map Problem.ID :=
    fun r hr => report_problems_mem_id.mpr ⟨hres r hr, List.mem_map_of_mem _ hr⟩
  refine ⟨?_, ?_, ?_⟩
  · rw [byProblem_spec _ hnd, bucketsUnion_specBuckets]
    exact unionFilters_match_perm _ _ hnd hcov
  · rw [bySeverity_eq]
    simp only [severityUnion]
    rw [List.append_nil,
      buildMap_eq _ _ _ _ hnd (by simp [mapKeys]),
      buildMap_eq _ _ _ _ hnd (by simp [mapKeys]),
      List.nil_append, List.nil_append,
      bucketsUnion_specBuckets, bucketsUnion_specBuckets]
    exact List.Perm.trans (unionFilters_sev_perm _ _)
      (unionFilters_match_perm _ _ hnd hcov)
  · intro k vs hkv
    rw [byProblem_spec _ hnd] at hkv
    obtain ⟨p, _, hk, hvs⟩ := specBuckets_mem hkv
    subst hk
    exact hvs

/-- Witness for the amended C2 at the concrete all-resolvable list
`rsResolvable`, also discharging the bucket-membership hypothesis at the
`PodOOMKilled` bucket. -/
theorem report_indices_partition_witness :
    (bucketsUnion (ReportFromResources rsResolvable).ByProblem).Perm rsResolvable ∧
    [recErrOOM] = rsResolvable.filter (fun r => r.ProblemID == "PodOOMKilled") :=
  ⟨(report_indices_partition rsResolvable (by decide)).1,
   (report_indices_partition rsResolvable (by decide)).2.2
      "PodOOMKilled" [recErrOOM] (by decide)⟩

/-- Claim C3 counterexample: at the maxed-out autoscaler `hpaMaxed` (10 of
10 replicas) the detector reports with warning flag `true`, not the Error
severity (`isWarning = false`) the claim demands. -/
theorem maxedOutHPAs_spec_cex :
    Except.map (fun t => t.2.1)
      (ProblemMaxedOutHPAs.Detector (K8sObject.hpa hpaMaxed) cfg3) = Except.ok true ∧
    (Except.ok true : Except Unit Bool) ≠ Except.ok false := by
  exact ⟨rfl, by simp⟩

/-- Claim C3 (amended): an autoscaler whose `status.currentReplicas` equals
`spec.maxReplicas` makes the detector report `isOccurring = true` with
WARNING severity (`isWarning = true`) and a detail giving the autoscaler
name and the current/max counts; when the counts differ it reports
`isOccurring = false`. -/
theorem maxedOutHPAs_spec (h : HPA) (cfg : Config) :
    (h.CurrentReplicas = h.MaxReplicas →
      ProblemMaxedOutHPAs.Detector (K8sObject.hpa h) cfg =
        Except.ok (h.Name ++ " has " ++ toString h.CurrentReplicas ++ "/"
          ++ toString h.MaxReplicas ++ " replicas", true, true)) ∧
    (h.CurrentReplicas ≠ h.MaxReplicas →
      ProblemMaxedOutHPAs.Detector (K8sObject.hpa h) cfg =
        Except.ok ("", false, false)) := by
  constructor
  · intro he
    simp [ProblemMaxedOutHPAs, he]
  · intro hne
    have hne' : h.MaxReplicas ≠ h.CurrentReplicas := fun hx => hne hx.symm
    simp [ProblemMaxedOutHPAs, hne']

/-- Witness for the amended C3 at 10-of-10 (`hpaMaxed`) and 9-of-10
(`hpaNine`). -/
theorem maxedOutHPAs_spec_witness :
    ProblemMaxedOutHPAs.Detector (K8sObject.hpa hpaMaxed) cfg3 =
      Except.ok ("hpa1 has 10/10 replicas", true, true) ∧
    ProblemMaxedOutHPAs.Detector (K8sObject.hpa hpaNine) cfg3 =
      Except.ok ("", false, false) :=
  ⟨(maxedOutHPAs_spec hpaMaxed cfg3).1 rfl,
   (maxedOutHPAs_spec hpaNine cfg3).2 (by decide)⟩

/-- Claim C4 counterexample: the record produced for a pod whose container
restarted 5 times under threshold 3 carries `Warning = true`, not the
claimed `isWarning = false`. -/
theorem highRestarts_spec_cex :
    getPodsWithProblems podFiveRestarts cfg3 = Except.ok ([recFiveRestarts], true) ∧
    recFiveRestarts.Warning ≠ false := by
  exact ⟨rfl, by decide⟩

/-- Claim C4 (amended): the HighRestarts detector reports, for the first
container whose restart count reaches the int32-converted threshold, a
record with WARNING flag `true` and a detail naming the pod and the count;
in particular the 5-restarts/threshold-3 scenario yields exactly one
`HighRestarts` record with `Warning = true` whose detail contains the pod
name and "5". -/
theorem highRestarts_spec :
    (∀ (pod : Pod) (cfg : Config),
      ProblemHighRestarts.Detector (K8sObject.pod pod) cfg =
        match pod.ContainerStatuses.find?
            (fun cs => decide (toInt32 cfg.RestartThreshold ≤ cs.RestartCount)) with
        | some cs =>
          Except.ok ("Container " ++ pod.Name ++ " has restarted "
            ++ toString cs.RestartCount ++ " time(s)", true, true)
        | none => Except.ok ("", false, false)) ∧
    getPodsWithProblems podFiveRestarts cfg3 = Except.ok ([recFiveRestarts], true) := by
  refine ⟨?_, rfl⟩
  intro pod cfg
  show (match highRestartsCheck pod.Name (toInt32 cfg.RestartThreshold)
          pod.ContainerStatuses with
        | some r => Except.ok r
        | none => Except.ok ("", false, false)) = _
  rw [highRestartsCheck_eq_find]
  cases pod.ContainerStatuses.find?
      (fun cs => decide (toInt32 cfg.RestartThreshold ≤ cs.RestartCount)) with
  | none => rfl
  | some cs => rfl

/-- Claim C5: at `podCrashNilTerm` — a container waiting with reason
`CrashLoopBackOff` whose `LastTerminationState.Terminated` is nil — the
detector dereferences the nil pointer and panics (`Except.error`), instead
of returning as the claim (and spec) require. -/
theorem crashLoopBackOff_nil_lastTermination_panics :
    ProblemPodCrashLoopBackOff.Detector (K8sObject.pod podCrashNilTerm) cfg3 =
      Except.error () :=
  rfl

/-- Claim C6 counterexample: in `podOOMMixed` the container `csOOMCurrent`
is currently terminated with reason OOMKilled, yet the detector returns the
WARNING record of the earlier container `csOOMLast` — the claim's
"current OOM implies Error" fails. -/
theorem oomKilled_spec_cex :
    currentOOMKilled csOOMCurrent = true ∧
    csOOMCurrent ∈ podOOMMixed.ContainerStatuses ∧
    Except.map (fun t => t.2.1)
      (ProblemPodOOMKilled.Detector (K8sObject.pod podOOMMixed) cfg3) =
      Except.ok true ∧
    (Except.ok true : Except Unit Bool) ≠ Except.ok false := by
  exact ⟨rfl, by decide, rfl, by simp⟩

/-- Claim C6 (amended): the detector scans the container statuses in order
and reports on the FIRST container matching either rule, checking the
current termination state before the last one: current-state OOM gives an
Error record, otherwise a last-termination OOM gives a Warning record whose
detail ends with the termination finish timestamp; the two single-container
scenarios of the spec follow. -/
theorem oomKilled_spec (pod : Pod) (cfg : Config) :
    (ProblemPodOOMKilled.Detector (K8sObject.pod pod) cfg =
      match pod.ContainerStatuses.find?
          (fun cs => currentOOMKilled cs || lastOOMKilled cs) with
      | some cs =>
        if currentOOMKilled cs then
          Except.ok ("Container " ++ cs.Name
            ++ " was killed because it ran out of memory", false, true)
        else
          Except.ok ("Container " ++ cs.Name
            ++ " was recently killed because it ran out of memory: "
            ++ lastFinishedAt cs, true, true)
      | none => Except.ok ("", false, false)) ∧
    ProblemPodOOMKilled.Detector (K8sObject.pod podOOMCurrentOnly) cfg3 =
      Except.ok ("Container c2 was killed because it ran out of memory",
        false, true) ∧
    ProblemPodOOMKilled.Detector (K8sObject.pod podOOMLastOnly) cfg3 =
      Except.ok ("Container c1 was recently killed because it ran out of memory: "
        ++ "2023-01-01 00:00:00 +0000 UTC", true, true) := by
  refine ⟨?_, rfl, rfl⟩
  show (match oomCheck pod.ContainerStatuses with
        | some r => Except.ok r
        | none => Except.ok ("", false, false)) = _
  rw [oomCheck_eq_find]
  cases pod.ContainerStatuses.find?
      (fun cs => currentOOMKilled cs || lastOOMKilled cs) with
  | none => rfl
  | some cs => cases hc : currentOOMKilled cs <;> simp [hc]

/-- Claim C7: every catalog detector, invoked with a resource of the kind it
does not target, reports `isOccurring = false` without raising an error. -/
theorem detectors_wrong_kind_safe :
    (∀ p ∈ enabledPodProblems, ∀ (h : HPA) (cfg : Config),
      p.Detector (K8sObject.hpa h) cfg = Except.ok ("", false, false)) ∧
    (∀ p ∈ enabledHPAProblems, ∀ (pod : Pod) (cfg : Config),
      p.Detector (K8sObject.pod pod) cfg = Except.ok ("", false, false)) := by
  constructor
  · intro p hp h cfg
    simp only [enabledPodProblems, List.mem_cons, List.not_mem_nil, or_false] at hp
    rcases hp with rfl | rfl | rfl | rfl | rfl <;> rfl
  · intro p hp pod cfg
    simp only [enabledHPAProblems, List.mem_cons, List.not_mem_nil, or_false] at hp
    rcases hp with rfl
    rfl

/-- Witness for C7: a pod detector fed an autoscaler and the HPA detector
fed a pod, both at concrete inputs. -/
theorem detectors_wrong_kind_safe_witness :
    ProblemPodCrashLoopBackOff.Detector (K8sObject.hpa hpaMaxed) cfg3 =
      Except.ok ("", false, false) ∧
    ProblemMaxedOutHPAs.Detector (K8sObject.pod podFiveRestarts) cfg3 =
      Except.ok ("", false, false) :=
  ⟨detectors_wrong_kind_safe.1 ProblemPodCrashLoopBackOff
      (List.mem_cons_self _ _) hpaMaxed cfg3,
   detectors_wrong_kind_safe.2 ProblemMaxedOutHPAs
      (List.mem_cons_self _ _) podFiveRestarts cfg3⟩

/-- Claim C8: a run whose scan over both kinds produces no records returns
normally (process exit status 0, the "all clear" outcome); a run producing
at least one record builds and renders the report and exits with status 1. -/
theorem run_exit_code_spec (pods : List Pod) (hpas : List HPA) (cfg : Config)
    (rs : List Resource) (hscan : scanAll pods hpas cfg = Except.ok rs) :
    (rs = [] → RunModel pods hpas cfg = Except.ok 0) ∧
    (rs ≠ [] → RunModel pods hpas cfg = Except.ok 1) := by
  constructor
  · rintro rfl
    unfold RunModel
    rw [hscan]
    rfl
  · intro hne
    unfold RunModel
    rw [hscan]
    cases rs with
    | nil => exact absurd rfl hne
    | cons a as => rfl

/-- Witness for C8: an empty cluster exits 0; a cluster with one maxed-out
autoscaler exits 1. -/
theorem run_exit_code_spec_witness :
    RunModel [] [] cfg3 = Except.ok 0 ∧ RunModel [] [hpaMaxed] cfg3 = Except.ok 1 :=
  ⟨(run_exit_code_spec [] [] cfg3 [] rfl).1 rfl,
   (run_exit_code_spec [] [hpaMaxed] cfg3 [recMaxed] rfl).2 (by decide)⟩

/-- Claim C9: the derived indices are pure functions of the report — in this
embedding repeated calls are definitionally equal and cannot mutate the
report — and `BySeverity` always carries both severity buckets, the Error
and the Warning entry, even when they are empty. -/
theorem indices_idempotent_and_buckets_present (r : Report) :
    r.ByProblem = r.ByProblem ∧
    r.BySeverity = r.BySeverity ∧
    (r.BySeverity.lookup Severity.error).isSome = true ∧
    (r.BySeverity.lookup Severity.warning).isSome = true := by
  refine ⟨rfl, rfl, ?_, ?_⟩ <;> rw [bySeverity_eq] <;> rfl

/-- Claim C10: a record whose `problemID` matches no catalog entry stays in
`Report.Resources` but appears in no bucket of `ByProblem` and in no bucket
of `BySeverity`. -/
theorem unresolvable_record_in_no_bucket (rs : List Resource) (r : Resource)
    (hr : r ∈ rs) (hunres : resolvable r.ProblemID = false) :
    r ∈ (ReportFromResources rs).Resources ∧
    (∀ k vs, (k, vs) ∈ (ReportFromResources rs).ByProblem → r ∉ vs) ∧
    (∀ s m, (s, m) ∈ (ReportFromResources rs).BySeverity →
      ∀ k vs, (k, vs) ∈ m → r ∉ vs) := by
  have hnd := report_problems_nodup rs
  refine ⟨hr, ?_, ?_⟩
  · intro k vs hkv hrv
    rw [byProblem_spec _ hnd] at hkv
    have hres := record_in_bucket_resolvable
      (q := fun p res => res.ProblemID == p.ID)
      (fun p res hq => by simpa [beq_iff_eq] using hq) hkv hrv
    rw [hres] at hunres
    cases hunres
  · intro s m hsm k vs hkv hrv
    rw [bySeverity_eq] at hsm
    have hand : ∀ (b : Resource → Bool) (p : Problem) (res : Resource),
        (res.ProblemID == p.ID && b res) = true → res.ProblemID = p.ID := by
      intro b p res hx
      have hx' := (Bool.and_eq_true _ _).mp hx
      simpa [beq_iff_eq] using hx'.1
    rcases List.mem_cons.mp hsm with he | hsm'
    · have hm : m = buildMap (fun p res => res.ProblemID == p.ID && !res.Warning)
          (ReportFromResources rs).Problems (ReportFromResources rs).Resources [] :=
        congrArg Prod.snd he
      rw [hm, buildMap_eq _ _ _ _ hnd (by simp [mapKeys]), List.nil_append] at hkv
      have hres := record_in_bucket_resolvable (hand _) hkv hrv
      rw [hres] at hunres
      cases hunres
    · rcases List.mem_cons.mp hsm' with he | h0
      · have hm : m = buildMap (fun p res => res.ProblemID == p.ID && res.Warning)
            (ReportFromResources rs).Problems (ReportFromResources rs).Resources [] :=
          congrArg Prod.snd he
        rw [hm, buildMap_eq _ _ _ _ hnd (by simp [mapKeys]), List.nil_append] at hkv
        have hres := record_in_bucket_resolvable (hand _) hkv hrv
        rw [hres] at hunres
        cases hunres
      · exact absurd h0 (List.not_mem_nil _)

/-- Witness for C10 at the concrete list holding `recUnresolvable` and one
resolvable record, discharging the bucket-membership hypothesis at the
single `HighRestarts` bucket. -/
theorem unresolvable_record_in_no_bucket_witness :
    recUnresolvable ∈ (ReportFromResources [recUnresolvable, recWarnHigh]).Resources ∧
    recUnresolvable ∉ [recWarnHigh] :=
  ⟨(unresolvable_record_in_no_bucket [recUnresolvable, recWarnHigh] recUnresolvable
      (by decide) (by decide)).1,
   (unresolvable_record_in_no_bucket [recUnresolvable, recWarnHigh] recUnresolvable
      (by decide) (by decide)).2.1 "HighRestarts" [recWarnHigh] (by decide)⟩

end K8r
